import Mathlib

/-!
Verification of the cylinder geometry builder and component aggregator of the
`orbit` repository (`src/Spacecraft.ts`, first revision, together with the
`Vector` class and the `DataIndex` interface it uses).

Modelling conventions:
* JS `number` values that only flow through arithmetic are modelled as `ℚ`.
  The claims settled here depend only on array lengths and on the integer
  index bookkeeping, never on the numeric values of coordinates or colors.
* The platform builtins `Math.cos`, `Math.sin` and the constant `Math.PI`
  are external to the repository; they are abstracted as an arbitrary
  `Trig` structure threaded through the definitions.
* `Float32Array` / `Uint16Array` contents are modelled as `List ℚ` / `List ℕ`;
  `Uint16Array` element coercion is modelled by `% 65536` (JS `ToUint16`).
* Thrown JS exceptions are modelled with `Except` / `Option`.
-/

set_option maxRecDepth 8000

namespace Orbit

/-- Abstraction of the JS `Math` trigonometry builtins and `Math.PI`
(`src/constants.ts` defines `PI = Math.PI`, `TWO_PI = 2 * PI`). -/
structure Trig where
  cosF : ℚ → ℚ
  sinF : ℚ → ℚ
  piQ : ℚ

/-- Value-level model of the `Vector` class (Cartesian components only; all
vectors built by the geometry code are constructed from Cartesian components,
so the lazy spherical caches never activate — see the stateful model below
for the proof of that). Mirrors `new Vector(x, y, z)`. -/
structure Vec where
  x : ℚ
  y : ℚ
  z : ℚ
deriving DecidableEq, Repr

/-- Model of `Vector.prototype.scale(s)` with a scalar argument:
`new Vector(this.x * s, this.y * s, this.z * s)`. -/
def Vec.scale (v : Vec) (s : ℚ) : Vec :=
  ⟨v.x * s, v.y * s, v.z * s⟩

/-- Model of `Vector.prototype.scale(s)` with an `[sx, sy, sz]` array argument:
`new Vector(this.x * s[0], this.y * s[1], this.z * s[2])`. -/
def Vec.scaleT (v : Vec) (s : ℚ × ℚ × ℚ) : Vec :=
  ⟨v.x * s.1, v.y * s.2.1, v.z * s.2.2⟩

/-- Model of `Vector.prototype.add(v)`: componentwise sum, fresh instance. -/
def Vec.add (v w : Vec) : Vec :=
  ⟨v.x + w.x, v.y + w.y, v.z + w.z⟩

/-- Model of `Vector.prototype.copy()` / `Vector.copy(v)`: fresh instance with the same
components. -/
def Vec.copy (v : Vec) : Vec :=
  ⟨v.x, v.y, v.z⟩

/-- Model of `Vector.prototype.valueOf()`: the raw `[x, y, z]` coordinate array. -/
def Vec.valueOf (v : Vec) : List ℚ :=
  [v.x, v.y, v.z]

/-- The `DataIndex` interface (first revision): vertex/index counts plus the
four parallel buffer arrays. -/
structure DataIndex where
  vertCount : ℕ
  indCount : ℕ
  position : List ℚ
  color : List ℚ
  normal : List ℚ
  index : List ℕ
deriving DecidableEq, Repr

/-- Model of `Cylinder.edgeCount`: number of edges used to represent a circular
perimeter (fixed at 12 in the source). -/
def edgeCount : ℕ := 12

/-- The `CylinderVerts` interface: vertices grouped by surface. -/
structure CylinderVerts where
  btmCntr : Vec
  btmPrmtr : List Vec
  topCntr : Vec
  topPrmtr : List Vec

/-- Model of `Cylinder.unitVerts`: the shared unit-cylinder vertex template.  Perimeter
point `ind` is `(cos(ind·2π/edgeCount), sin(ind·2π/edgeCount), 0 or 1)`;
the `2π` comes from `TWO_PI = 2 * PI`. -/
def unitVerts (t : Trig) : CylinderVerts :=
  { btmCntr := ⟨0, 0, 0⟩
    btmPrmtr := (List.range edgeCount).map fun ind =>
      Vec.mk (t.cosF ((ind : ℚ) * (2 * t.piQ) / (edgeCount : ℚ)))
             (t.sinF ((ind : ℚ) * (2 * t.piQ) / (edgeCount : ℚ)))
             0
    topCntr := ⟨0, 0, 1⟩
    topPrmtr := (List.range edgeCount).map fun ind =>
      Vec.mk (t.cosF ((ind : ℚ) * (2 * t.piQ) / (edgeCount : ℚ)))
             (t.sinF ((ind : ℚ) * (2 * t.piQ) / (edgeCount : ℚ)))
             1 }

/-- Model of `Cylinder.getVectors(dz, r0, r1)`: the 2·(edgeCount+1) distinct vertices of
a cylinder — bottom perimeter scaled by `r0`, bottom center copy, top perimeter
scaled by `[r1, r1, dz]`, top center scaled by `dz`. -/
def getVectors (t : Trig) (dz r0 r1 : ℚ) : List Vec :=
  ((unitVerts t).btmPrmtr.map fun vert => vert.scale r0)
    ++ [(unitVerts t).btmCntr.copy]
    ++ ((unitVerts t).topPrmtr.map fun vert => vert.scaleT (r1, r1, dz))
    ++ [(unitVerts t).topCntr.scale dz]

/-- The `Cylinder` component: height, the two radii, the position offset
(`SpacecraftComponent._pos`, defaulting to `new Vector()` = (0,0,0)) and the
vertex list computed by the constructor. -/
structure Cylinder where
  dz : ℚ
  r0 : ℚ
  r1 : ℚ
  pos : Vec
  verts : List Vec

/-- Model of the constructor `new Cylinder(dz, r0, r1)`: stores the dimensions and computes
`Cylinder.getVectors(dz, r0, r1)`; performs no validation of its arguments. -/
def mkCylinder (t : Trig) (dz r0 r1 : ℚ) : Cylinder :=
  { dz := dz, r0 := r0, r1 := r1, pos := ⟨0, 0, 0⟩, verts := getVectors t dz r0 r1 }

/-- The `pos` setter on `SpacecraftComponent`. -/
def Cylinder.setPos (c : Cylinder) (p : Vec) : Cylinder :=
  { c with pos := p }

/-- Model of `Cylinder.prototype.vectorArray` (first revision):
`this._verts.map(v => v.add(this.pos))`, where the `pos` getter returns
`Vector.copy(this._pos)`. -/
def Cylinder.vectorArray (c : Cylinder) : List Vec :=
  c.verts.map fun v => v.add (Vec.copy c.pos)

/-- Model of `Cylinder.prototype.elements` (first revision, the geometry builder):
splits the vertex list into bottom/top halves, makes four fresh side copies
per edge, emits bottom-cap, top-cap and side index triples, synthesizes the
color table, and returns the flattened `DataIndex` buffers. -/
def Cylinder.elements (t : Trig) (c : Cylinder) : DataIndex :=
  let vertices := c.vectorArray
  -- let topVerts = vertices.splice(vertices.length / 2); let btmVerts = vertices
  let topVerts := vertices.drop (vertices.length / 2)
  let btmVerts := vertices.take (vertices.length / 2)
  -- const bCntr = edgeCount; const tCntr = 2*edgeCount + 1; const sOffset = tCntr + 1
  let bCntr := edgeCount
  let tCntr := 2 * edgeCount + 1
  let sOffset := tCntr + 1
  -- per-edge loop: side-vertex copies and the three index groups
  let sideVerts := (List.range edgeCount).flatMap fun i =>
    let i1 := (i + 1) % edgeCount
    [(btmVerts.getD i ⟨0, 0, 0⟩).copy, (topVerts.getD i ⟨0, 0, 0⟩).copy,
     (btmVerts.getD i1 ⟨0, 0, 0⟩).copy, (topVerts.getD i1 ⟨0, 0, 0⟩).copy]
  let btmInd : List (ℕ × ℕ × ℕ) := (List.range edgeCount).map fun i =>
    (bCntr, i, (i + 1) % edgeCount)
  let topInd : List (ℕ × ℕ × ℕ) := (List.range edgeCount).map fun i =>
    (tCntr, (i + 1) % edgeCount + bCntr + 1, i + bCntr + 1)
  let sideInd : List (ℕ × ℕ × ℕ) := (List.range edgeCount).flatMap fun i =>
    let fourI := i * 4
    [(fourI + sOffset, fourI + sOffset + 1, fourI + sOffset + 2),
     (fourI + sOffset + 2, fourI + sOffset + 1, fourI + sOffset + 3)]
  let finalVerts := btmVerts ++ topVerts ++ sideVerts
  let finalInds : List ℕ := ((btmInd ++ topInd) ++ sideInd).flatMap fun g =>
    [g.1, g.2.1, g.2.2]
  -- colors: one RGBA quadruple per edge (theta = (i / btmVerts.length) * PI)
  let colors : List (List ℚ) := (List.range edgeCount).map fun i =>
    let theta := ((i : ℚ) / (btmVerts.length : ℚ)) * t.piQ
    [t.sinF theta, t.sinF (theta + t.piQ / 3), t.sinF (theta + 2 * t.piQ / 3), 1]
  -- finalColors = colors.concat(colors.slice()) then 4 entries per side face
  let finalColors : List (List ℚ) := (colors ++ colors)
    ++ ((List.range edgeCount).flatMap fun i =>
      let i1 := (i + 1) % edgeCount
      let i2 := (i + 2) % edgeCount
      [colors.getD i [], colors.getD i1 [], colors.getD i1 [], colors.getD i2 []])
  { vertCount := finalVerts.length
    indCount := finalInds.length
    position := (finalVerts.map Vec.valueOf).flatten
    color := finalColors.flatten
    normal := []
    index := finalInds.map (· % 65536) }

/-- A fixed instantiation of the trig abstraction, used for concrete
evaluations (the settled claims never depend on the trig values). -/
def trig0 : Trig := ⟨fun _ => 0, fun _ => 0, 0⟩

/-- The index array emitted by `Cylinder.elements`, which is the same concrete
list of naturals for every cylinder (it depends only on the fixed
`edgeCount`). -/
def cylIndexList : List ℕ :=
  ((mkCylinder trig0 0 0 0).elements trig0).index

/-! ### The Spacecraft component list

Components are JS objects compared by identity (`===`); they are modelled by
natural-number identifiers.  `RangeError` messages in the source are fully
determined by the offending index (`invalid spacecraft component index ${ind}`),
so the error is modelled as carrying that index. -/

/-- The `RangeError` thrown by the component-list accessors; the payload is the
index interpolated into the message string. -/
inductive JsError
  | rangeError (ind : ℤ)
deriving DecidableEq, Repr

/-- Model of `Array.prototype.indexOf` restricted to identity comparison: the index of
the first occurrence, as an `Option`. -/
def jsIndexOf? (c : ℕ) : List ℕ → Option ℕ
  | [] => none
  | a :: l => if a = c then some 0 else (jsIndexOf? c l).map (· + 1)

/-- Model of `this._components.indexOf(comp)`: first index of `comp`, or `-1`. -/
def jsIndexOf (l : List ℕ) (c : ℕ) : ℤ :=
  match jsIndexOf? c l with
  | some i => (i : ℤ)
  | none => -1

/-- Model of `Spacecraft.prototype.getComponent(ind)`: throws `RangeError` when
`ind > length || ind < 0`, otherwise returns `this._components[ind]`
(`none` models the JS `undefined` produced when `ind` equals the length). -/
def getComponent (l : List ℕ) (ind : ℤ) : Except JsError (Option ℕ) :=
  if ind > (l.length : ℤ) ∨ ind < 0 then
    .error (.rangeError ind)
  else
    .ok l[ind.toNat]?

/-- Model of `Spacecraft.prototype.addComponent(comp)`: if present, first spliced out,
then pushed to the end; the source returns the new count (= list length). -/
def addComponent (l : List ℕ) (c : ℕ) : List ℕ :=
  let ind := jsIndexOf l c
  (if 0 ≤ ind then l.eraseIdx ind.toNat else l) ++ [c]

/-- Argument of `removeComponent`: a component reference or a numeric index. -/
inductive CompOrIdx
  | comp (c : ℕ)
  | idx (i : ℤ)

/-- Model of `Spacecraft.prototype.removeComponent(comp)`: a reference argument is
converted to an index with `indexOf` (−1 when absent), then the same
`ind > length || ind < 0` range check as `getComponent` runs, and on success
`splice(ind, 1)[0]` yields the removed component (or `undefined` = `none` when
`ind` equals the length) together with the shortened list. -/
def removeComponent (l : List ℕ) (arg : CompOrIdx) : Except JsError (Option ℕ × List ℕ) :=
  let ind : ℤ :=
    match arg with
    | .comp c => jsIndexOf l c
    | .idx i => i
  if ind > (l.length : ℤ) ∨ ind < 0 then
    .error (.rangeError ind)
  else
    .ok (l[ind.toNat]?, l.eraseIdx ind.toNat)

/-! ### The component aggregator (`Spacecraft.prototype.elements`) -/

/-- Model of `TypedArray.prototype.set(src, off)`: overwrites `dst[off .. off+|src|)`
with `src`; throws a `RangeError` (modelled by `none`) when the source does
not fit. -/
def typedSet {α : Type} (dst src : List α) (off : ℕ) : Option (List α) :=
  if off + src.length ≤ dst.length then
    some (dst.take off ++ src ++ dst.drop (off + src.length))
  else
    none

/-- One loop iteration of `Spacecraft.prototype.elements`: writes the
component's buffers into the aggregate arrays at offsets derived from the
accumulated vertex/index counts, re-basing each index entry by the running
vertex count (`Uint16Array.prototype.map` wraps the result to 16 bits). -/
def mergeStep (acc comp : DataIndex) : Option DataIndex := do
  let pos ← typedSet acc.position comp.position (3 * acc.vertCount)
  let col ← typedSet acc.color comp.color (4 * acc.vertCount)
  let nor ← typedSet acc.normal comp.normal 0
  let idx ← typedSet acc.index (comp.index.map fun ind => (ind + acc.vertCount) % 65536)
    acc.indCount
  some { vertCount := acc.vertCount + comp.vertCount
         indCount := acc.indCount + comp.indCount
         position := pos, color := col, normal := nor, index := idx }

/-- Model of `Spacecraft.prototype.elements` (first revision): sums the per-component
vertex and index counts, allocates zero-filled aggregate arrays of sizes
`3·Σv`, `4·Σv`, `0` and `Σi`, then folds `mergeStep` over the component
geometries in list order. -/
def scElements (comps : List DataIndex) : Option DataIndex :=
  let cv := (comps.map DataIndex.vertCount).sum
  let ci := (comps.map DataIndex.indCount).sum
  comps.foldlM mergeStep
    { vertCount := 0
      indCount := 0
      position := List.replicate (3 * cv) 0
      color := List.replicate (4 * cv) 0
      normal := []
      index := List.replicate ci 0 }

/-- Well-formedness of a component geometry (what the spec calls an
"independently-valid geometry"): the buffer lengths agree with the stored
counts, the color array fits its per-vertex slot, and normals are empty —
exactly what `Cylinder.elements` emits. -/
def wfDI (d : DataIndex) : Prop :=
  d.position.length = 3 * d.vertCount ∧ d.color.length ≤ 4 * d.vertCount ∧
    d.normal.length = 0 ∧ d.index.length = d.indCount

instance : DecidablePred wfDI := fun d => by
  unfold wfDI
  infer_instance

/-! ### Stateful model of the `Vector` class

The `Vector` class caches Cartesian and spherical components in nullable
private fields; reading an invalidated component recomputes it from the other
representation (mutating the cache) or throws a `TypeError` when the other
representation is also invalid.  To settle the claim that the shared
`Cylinder.unitVerts` template is never mutated, the fields are modelled as an
explicit state threaded through the accessors (`Angle` values are collapsed to
their radian magnitudes, which is all the getters read). -/

/-- The private fields of a `Vector` instance: `_x`, `_y`, `_z`, `_theta`,
`_phi`, `_r`, each `null`able. -/
structure VecSt where
  mx : Option ℚ
  my : Option ℚ
  mz : Option ℚ
  mtheta : Option ℚ
  mphi : Option ℚ
  mr : Option ℚ
deriving DecidableEq, Repr

/-- Model of `new Vector(x, y, z)` (the Cartesian constructor): the setters store the three
Cartesian fields and null out every spherical field. -/
def VecSt.newCartesian (x y z : ℚ) : VecSt :=
  ⟨some x, some y, some z, none, none, none⟩

/-- The `x` getter: returns the cached value, or recomputes
`r * cos(phi) * cos(theta)` (caching it), or throws `TypeError`. -/
def VecSt.getX (t : Trig) (s : VecSt) : Except Unit (ℚ × VecSt) :=
  match s.mx with
  | some v => .ok (v, s)
  | none =>
    match s.mtheta, s.mphi, s.mr with
    | some th, some ph, some r =>
      let v := r * t.cosF ph * t.cosF th
      .ok (v, { s with mx := some v })
    | _, _, _ => .error ()

/-- The `y` getter: cached value, or `r * cos(phi) * sin(theta)`. -/
def VecSt.getY (t : Trig) (s : VecSt) : Except Unit (ℚ × VecSt) :=
  match s.my with
  | some v => .ok (v, s)
  | none =>
    match s.mtheta, s.mphi, s.mr with
    | some th, some ph, some r =>
      let v := r * t.cosF ph * t.sinF th
      .ok (v, { s with my := some v })
    | _, _, _ => .error ()

/-- The `z` getter: cached value, or `r * sin(phi)`. -/
def VecSt.getZ (t : Trig) (s : VecSt) : Except Unit (ℚ × VecSt) :=
  match s.mz with
  | some v => .ok (v, s)
  | none =>
    match s.mtheta, s.mphi, s.mr with
    | some _th, some ph, some r =>
      let v := r * t.sinF ph
      .ok (v, { s with mz := some v })
    | _, _, _ => .error ()

/-- Stateful model of `scale(s)` with a scalar: reads `this.x`, `this.y`, `this.z` in order and
constructs a fresh Cartesian `Vector`; returns the fresh vector together with
the (possibly cache-updated) state of `this`. -/
def VecSt.scaleSt (t : Trig) (s : VecSt) (k : ℚ) : Except Unit (VecSt × VecSt) := do
  let (x, s1) ← s.getX t
  let (y, s2) ← s1.getY t
  let (z, s3) ← s2.getZ t
  .ok (VecSt.newCartesian (x * k) (y * k) (z * k), s3)

/-- Stateful model of `scale(s)` with an `[sx, sy, sz]` array argument. -/
def VecSt.scaleTSt (t : Trig) (s : VecSt) (k : ℚ × ℚ × ℚ) : Except Unit (VecSt × VecSt) := do
  let (x, s1) ← s.getX t
  let (y, s2) ← s1.getY t
  let (z, s3) ← s2.getZ t
  .ok (VecSt.newCartesian (x * k.1) (y * k.2.1) (z * k.2.2), s3)

/-- Stateful model of `copy()`: reads the three Cartesian getters and constructs a fresh
Cartesian `Vector`. -/
def VecSt.copySt (t : Trig) (s : VecSt) : Except Unit (VecSt × VecSt) := do
  let (x, s1) ← s.getX t
  let (y, s2) ← s1.getY t
  let (z, s3) ← s2.getZ t
  .ok (VecSt.newCartesian x y z, s3)

/-- The state of the shared `Cylinder.unitVerts` template: one `VecSt` per
template vertex, grouped as in the `CylinderVerts` interface. -/
structure TemplateSt where
  btmCntr : VecSt
  btmPrmtr : List VecSt
  topCntr : VecSt
  topPrmtr : List VecSt
deriving DecidableEq, Repr

/-- The template state produced at module initialization: every template
vertex is built with the Cartesian `Vector` constructor. -/
def initTemplate (t : Trig) : TemplateSt :=
  { btmCntr := VecSt.newCartesian 0 0 0
    btmPrmtr := (List.range edgeCount).map fun ind =>
      VecSt.newCartesian (t.cosF ((ind : ℚ) * (2 * t.piQ) / (edgeCount : ℚ)))
        (t.sinF ((ind : ℚ) * (2 * t.piQ) / (edgeCount : ℚ))) 0
    topCntr := VecSt.newCartesian 0 0 1
    topPrmtr := (List.range edgeCount).map fun ind =>
      VecSt.newCartesian (t.cosF ((ind : ℚ) * (2 * t.piQ) / (edgeCount : ℚ)))
        (t.sinF ((ind : ℚ) * (2 * t.piQ) / (edgeCount : ℚ))) 1 }

/-- Model of `Cylinder.getVectors` with the template state threaded through: each
perimeter vertex is `scale`d, the bottom center is `copy`d and the top center
is `scale`d, in source order; returns the fresh result vectors and the
template state after the call.  This is the only code path that touches the
template — `vectorArray` and `elements` operate on the fresh `_verts`
instances stored by the constructor. -/
def getVectorsSt (t : Trig) (dz r0 r1 : ℚ) (tm : TemplateSt) :
    Except Unit (List VecSt × TemplateSt) := do
  let bp ← tm.btmPrmtr.mapM fun v => v.scaleSt t r0
  let bc ← tm.btmCntr.copySt t
  let tp ← tm.topPrmtr.mapM fun v => v.scaleTSt t (r1, r1, dz)
  let tc ← tm.topCntr.scaleSt t dz
  .ok ((bp.map Prod.fst ++ [bc.1] ++ tp.map Prod.fst ++ [tc.1]),
       { btmCntr := bc.2, btmPrmtr := bp.map Prod.snd
         topCntr := tc.2, topPrmtr := tp.map Prod.snd })

/-- A sequence of cylinder constructions (each `new Cylinder(dz, r0, r1)` runs
`Cylinder.getVectors` against the shared template): folds the template state
through every construction.  Geometry requests (`elements`) never receive the
template state at all, since they read only the constructor-stored `_verts`. -/
def constructMany (t : Trig) (ps : List (ℚ × ℚ × ℚ)) (tm : TemplateSt) : TemplateSt :=
  ps.foldl (fun acc p =>
    match getVectorsSt t p.1 p.2.1 p.2.2 acc with
    | .ok (_, tm2) => tm2
    | .error _ => acc) tm

/-! ### Helper lemmas -/

theorem jsIndexOf?_eq_none_iff {c : ℕ} {l : List ℕ} : jsIndexOf? c l = none ↔ c ∉ l := by
  induction l with
  | nil => simp [jsIndexOf?]
  | cons a l ih =>
    by_cases ha : a = c
    · subst ha
      simp [jsIndexOf?]
    · have hrw : jsIndexOf? c (a :: l) = (jsIndexOf? c l).map (· + 1) := by
        simp [jsIndexOf?, ha]
      rw [hrw]
      constructor
      · intro hmap hmem
        have hnone : jsIndexOf? c l = none := by
          cases hj : jsIndexOf? c l with
          | none => rfl
          | some i => rw [hj] at hmap; exact absurd hmap (by simp)
        rcases List.mem_cons.mp hmem with h1 | h2
        · exact ha h1.symm
        · exact (ih.mp hnone) h2
      · intro hmem
        have h2 : c ∉ l := fun hm => hmem (List.mem_cons_of_mem a hm)
        rw [ih.mpr h2]
        rfl

theorem jsIndexOf_eq_neg_one {c : ℕ} {l : List ℕ} (h : c ∉ l) : jsIndexOf l c = -1 := by
  unfold jsIndexOf
  rw [jsIndexOf?_eq_none_iff.mpr h]

theorem jsIndexOf?_append_self {c : ℕ} {ys : List ℕ} (h : c ∉ ys) :
    jsIndexOf? c (ys ++ [c]) = some ys.length := by
  induction ys with
  | nil => simp [jsIndexOf?]
  | cons a ys ih =>
    have ha : ¬a = c := fun he => h (he ▸ List.mem_cons_self a ys)
    have hys : c ∉ ys := fun hm => h (List.mem_cons_of_mem a hm)
    simp [jsIndexOf?, ha, ih hys]

theorem eraseIdx_append_self (ys : List ℕ) (c : ℕ) :
    (ys ++ [c]).eraseIdx ys.length = ys := by
  rw [List.eraseIdx_append_of_length_le (Nat.le_refl ys.length)]
  simp [List.eraseIdx]

/-- Calling `removeComponent` by reference, when the component is absent, raises the
same `RangeError` as a numeric index of `-1` (the `indexOf` result). -/
theorem removeComponent_absent {l : List ℕ} {c : ℕ} (h : c ∉ l) :
    removeComponent l (.comp c) = .error (.rangeError (-1)) := by
  unfold removeComponent
  simp [jsIndexOf_eq_neg_one h]

/-- Appending a component when at most one occurrence is present yields a list
ending in that component, with no other occurrence. -/
theorem addComponent_shape (l : List ℕ) (x : ℕ) (h : l.count x ≤ 1) :
    ∃ ys, addComponent l x = ys ++ [x] ∧ x ∉ ys := by
  induction l with
  | nil =>
    exact ⟨[], rfl, by simp⟩
  | cons a l ih =>
    by_cases ha : a = x
    · subst ha
      have hcnt : l.count a = 0 := by
        rw [List.count_cons_self] at h
        omega
      have hnm : a ∉ l := List.count_eq_zero.mp hcnt
      refine ⟨l, ?_, hnm⟩
      unfold addComponent jsIndexOf
      simp [jsIndexOf?]
    · have hxa : x ≠ a := fun he => ha he.symm
      have hcnt : l.count x ≤ 1 := by
        rwa [List.count_cons_of_ne hxa] at h
      obtain ⟨ys, hys, hmem⟩ := ih hcnt
      by_cases hx : x ∈ l
      · have hsome : ∃ i, jsIndexOf? x l = some i := by
          cases hj : jsIndexOf? x l with
          | none => exact absurd (jsIndexOf?_eq_none_iff.mp hj) (by simpa using hx)
          | some i => exact ⟨i, rfl⟩
        obtain ⟨i, hi⟩ := hsome
        have hnn : (0 : ℤ) ≤ (i : ℤ) + 1 := by omega
        have hstep : addComponent (a :: l) x = (a :: l.eraseIdx i) ++ [x] := by
          unfold addComponent jsIndexOf
          simp [jsIndexOf?, ha, hi, hnn, List.eraseIdx]
        have hl : addComponent l x = l.eraseIdx i ++ [x] := by
          unfold addComponent jsIndexOf
          simp [hi]
        have hys2 : l.eraseIdx i = ys := by
          have h3 : l.eraseIdx i ++ [x] = ys ++ [x] := by rw [← hl, hys]
          simpa using congrArg List.dropLast h3
        refine ⟨a :: ys, by rw [hstep, hys2], ?_⟩
        intro hmem2
        rcases List.mem_cons.mp hmem2 with h1 | h2
        · exact ha h1.symm
        · exact hmem h2
      · have hnone : jsIndexOf? x l = none := jsIndexOf?_eq_none_iff.mpr hx
        refine ⟨a :: l, ?_, ?_⟩
        · unfold addComponent jsIndexOf
          simp [jsIndexOf?, ha, hnone]
        · intro hmem2
          rcases List.mem_cons.mp hmem2 with h1 | h2
          · exact ha h1.symm
          · exact hx h2

/-- Re-adding a component that is already last is a no-op on the list. -/
theorem addComponent_last {ys : List ℕ} {x : ℕ} (h : x ∉ ys) :
    addComponent (ys ++ [x]) x = ys ++ [x] := by
  unfold addComponent jsIndexOf
  rw [jsIndexOf?_append_self h]
  simp [eraseIdx_append_self]

/-- Removing-by-reference a component that occurs exactly once, at the end of
the list, returns it and the remaining prefix. -/
theorem removeComponent_last {ys : List ℕ} {x : ℕ} (h : x ∉ ys) :
    removeComponent (ys ++ [x]) (.comp x) = .ok (some x, ys) := by
  unfold removeComponent
  have h1 : jsIndexOf (ys ++ [x]) x = (ys.length : ℤ) := by
    unfold jsIndexOf
    rw [jsIndexOf?_append_self h]
  simp only [h1]
  rw [if_neg (by
    simp only [List.length_append, List.length_cons, List.length_nil]
    omega)]
  rw [show ((ys.length : ℤ)).toNat = ys.length from by omega]
  rw [List.getElem?_concat_length, eraseIdx_append_self]

theorem typedSet_eq_some {α : Type} {dst src : List α} {off : ℕ}
    (h : off + src.length ≤ dst.length) :
    typedSet dst src off = some (dst.take off ++ src ++ dst.drop (off + src.length)) := by
  simp [typedSet, h]

theorem typedSet_fits {α : Type} {dst src : List α} {off : ℕ} {l : List α}
    (h : typedSet dst src off = some l) : off + src.length ≤ dst.length := by
  unfold typedSet at h
  by_cases hc : off + src.length ≤ dst.length
  · exact hc
  · rw [if_neg hc] at h
    exact absurd h (by simp)

theorem typedSet_length {α : Type} {dst src : List α} {off : ℕ} {l : List α}
    (h : typedSet dst src off = some l) : l.length = dst.length := by
  have hfit := typedSet_fits h
  rw [typedSet_eq_some hfit] at h
  cases h
  simp [List.length_take, List.length_drop]
  omega

theorem typedSet_getElem?_lt {α : Type} {dst src : List α} {off j : ℕ} {l : List α}
    (h : typedSet dst src off = some l) (hj : j < off) : l[j]? = dst[j]? := by
  have hfit := typedSet_fits h
  rw [typedSet_eq_some hfit] at h
  cases h
  have htk : j < (dst.take off).length := by
    simp [List.length_take]
    omega
  rw [List.getElem?_append_left (by simp [List.length_take]; omega : j < ((dst.take off ++ src)).length)]
  rw [List.getElem?_append_left htk]
  exact List.getElem?_take_of_lt hj

theorem typedSet_getElem?_mid {α : Type} {dst src : List α} {off j : ℕ} {l : List α}
    (h : typedSet dst src off = some l) (hj : j < src.length) : l[off + j]? = src[j]? := by
  have hfit := typedSet_fits h
  rw [typedSet_eq_some hfit] at h
  cases h
  have hoff : off ≤ dst.length := by omega
  have htk : (dst.take off).length = off := by
    simp [List.length_take]
    omega
  rw [List.getElem?_append_left (by simp [htk]; omega : off + j < ((dst.take off ++ src)).length)]
  rw [List.getElem?_append_right (by omega : (dst.take off).length ≤ off + j)]
  rw [htk]
  congr 1
  omega

/-- A single aggregation step succeeds whenever the component geometry is
well formed and the aggregate arrays have room, and it preserves the aggregate
array lengths while accumulating the counts. -/
theorem mergeStep_ok {acc comp : DataIndex} (hw : wfDI comp)
    (hp : 3 * acc.vertCount + 3 * comp.vertCount ≤ acc.position.length)
    (hc : 4 * acc.vertCount + 4 * comp.vertCount ≤ acc.color.length)
    (hn : acc.normal.length = 0)
    (hi : acc.indCount + comp.indCount ≤ acc.index.length) :
    ∃ out, mergeStep acc comp = some out ∧
      out.vertCount = acc.vertCount + comp.vertCount ∧
      out.indCount = acc.indCount + comp.indCount ∧
      out.position.length = acc.position.length ∧
      out.color.length = acc.color.length ∧
      out.normal.length = 0 ∧
      out.index.length = acc.index.length ∧
      typedSet acc.index (comp.index.map fun ind => (ind + acc.vertCount) % 65536)
        acc.indCount = some out.index := by
  obtain ⟨hw1, hw2, hw3, hw4⟩ := hw
  have hfp : 3 * acc.vertCount + comp.position.length ≤ acc.position.length := by omega
  have hfc : 4 * acc.vertCount + comp.color.length ≤ acc.color.length := by omega
  have hfn : 0 + comp.normal.length ≤ acc.normal.length := by omega
  have hfi : acc.indCount + (comp.index.map fun ind => (ind + acc.vertCount) % 65536).length
      ≤ acc.index.length := by
    rw [List.length_map]
    omega
  refine ⟨⟨acc.vertCount + comp.vertCount, acc.indCount + comp.indCount,
    acc.position.take (3 * acc.vertCount) ++ comp.position
      ++ acc.position.drop (3 * acc.vertCount + comp.position.length),
    acc.color.take (4 * acc.vertCount) ++ comp.color
      ++ acc.color.drop (4 * acc.vertCount + comp.color.length),
    acc.normal.take 0 ++ comp.normal ++ acc.normal.drop (0 + comp.normal.length),
    acc.index.take acc.indCount ++ (comp.index.map fun ind => (ind + acc.vertCount) % 65536)
      ++ acc.index.drop (acc.indCount
        + (comp.index.map fun ind => (ind + acc.vertCount) % 65536).length)⟩,
    ?_, rfl, rfl, ?_, ?_, ?_, ?_, typedSet_eq_some hfi⟩
  · unfold mergeStep
    rw [typedSet_eq_some hfp, typedSet_eq_some hfc, typedSet_eq_some hfn,
      typedSet_eq_some hfi]
    rfl
  · exact typedSet_length (typedSet_eq_some hfp)
  · exact typedSet_length (typedSet_eq_some hfc)
  · rw [typedSet_length (typedSet_eq_some hfn)]
    exact hn
  · exact typedSet_length (typedSet_eq_some hfi)

/-- Folding the aggregation step over a list of well-formed component
geometries succeeds, accumulates the vertex count, preserves the aggregate
array lengths, and never overwrites index entries below the starting index
count. -/
theorem mergeRun :
    ∀ (rest : List DataIndex) (acc : DataIndex),
    (∀ d ∈ rest, wfDI d) →
    acc.position.length = 3 * acc.vertCount + 3 * (rest.map DataIndex.vertCount).sum →
    acc.color.length = 4 * acc.vertCount + 4 * (rest.map DataIndex.vertCount).sum →
    acc.normal.length = 0 →
    acc.index.length = acc.indCount + (rest.map DataIndex.indCount).sum →
    ∃ out, rest.foldlM mergeStep acc = some out ∧
      out.vertCount = acc.vertCount + (rest.map DataIndex.vertCount).sum ∧
      out.position.length = acc.position.length ∧
      out.index.length = acc.index.length ∧
      ∀ j, j < acc.indCount → out.index[j]? = acc.index[j]? := by
  intro rest
  induction rest with
  | nil =>
    intro acc _ hp _ _ hi
    exact ⟨acc, rfl, by simp, rfl, rfl, fun j _ => rfl⟩
  | cons d rest ih =>
    intro acc hw hp hc hn hi
    have hwd : wfDI d := hw d (List.mem_cons_self d rest)
    have hwr : ∀ e ∈ rest, wfDI e := fun e he => hw e (List.mem_cons_of_mem d he)
    simp only [List.map_cons, List.sum_cons] at hp hc hi
    obtain ⟨acc2, hstep, hv2, hi2, hpl2, hcl2, hnl2, hil2, hts⟩ :=
      mergeStep_ok hwd (by omega) (by omega) hn (by omega)
    obtain ⟨out, hrun, hvo, hpo, hio, hpre⟩ := ih acc2 hwr
      (by rw [hpl2, hv2]; omega) (by rw [hcl2, hv2]; omega) hnl2
      (by rw [hil2, hi2]; omega)
    refine ⟨out, ?_, ?_, ?_, ?_, ?_⟩
    · rw [List.foldlM_cons, hstep]
      exact hrun
    · rw [hvo, hv2]
      simp [Nat.add_assoc]
    · rw [hpo, hpl2]
    · rw [hio, hil2]
    · intro j hj
      rw [hpre j (by omega)]
      exact typedSet_getElem?_lt hts hj

/-! ### Skeleton facts about the cylinder builder

The array layout emitted by `Cylinder.elements` (list lengths and the index
entries) depends only on the fixed `edgeCount`, never on the trig
interpretation, the dimensions or the position offset. -/

/-- Every constructed cylinder stores the 26 template-derived vertices. -/
theorem mk_setPos_verts_length (t : Trig) (dz r0 r1 : ℚ) (p : Vec) :
    ((mkCylinder t dz r0 r1).setPos p).verts.length = 26 :=
  rfl

/-- A cylinder whose stored vertex list has the 26 template entries emits
exactly 74 vertices. -/
theorem elements_vertCount (t : Trig) (c : Cylinder) (h : c.verts.length = 26) :
    (c.elements t).vertCount = 74 := by
  simp only [Cylinder.elements, Cylinder.vectorArray, List.length_append, List.length_take,
    List.length_drop, List.length_map, h, List.length_flatMap, Function.comp_def,
    List.length_cons, List.length_nil]
  rw [List.map_const']
  simp [List.sum_replicate, edgeCount]

/-- The flattened position array always holds three coordinates per emitted
vertex. -/
theorem elements_position_length (t : Trig) (c : Cylinder) :
    (c.elements t).position.length = 3 * (c.elements t).vertCount := by
  simp only [Cylinder.elements, List.length_flatten, List.map_map, Function.comp_def,
    Vec.valueOf, List.length_cons, List.length_nil]
  rw [List.map_const']
  simp [List.sum_replicate, Nat.mul_comm]

/-- The emitted index array is one fixed concrete list. -/
theorem elements_index_eq (t : Trig) (c : Cylinder) :
    (c.elements t).index = cylIndexList :=
  rfl

/-! ### Claim theorems -/

/-- C1: for every cylinder (any trig interpretation, height, radii and
position offset; edge count fixed at 12), `Cylinder.elements` emits exactly
`2 + 6·12 = 74` vertices — `vertCount` is 74 and the flattened position array
holds 74 coordinate triples — and `4·12 = 48` triangles — the index array
holds `144 = 3·48` entries and `indCount` is 144. -/
theorem C1_cylinder_counts (t : Trig) (dz r0 r1 : ℚ) (p : Vec) :
    (((mkCylinder t dz r0 r1).setPos p).elements t).vertCount = 2 + 6 * 12 ∧
    (((mkCylinder t dz r0 r1).setPos p).elements t).position.length = 3 * (2 + 6 * 12) ∧
    (((mkCylinder t dz r0 r1).setPos p).elements t).indCount = 3 * (4 * 12) ∧
    (((mkCylinder t dz r0 r1).setPos p).elements t).index.length = 3 * (4 * 12) := by
  have hv := elements_vertCount t ((mkCylinder t dz r0 r1).setPos p)
    (mk_setPos_verts_length t dz r0 r1 p)
  refine ⟨hv, ?_, rfl, rfl⟩
  rw [elements_position_length, hv]

/-- C2: every entry of the index array emitted by `Cylinder.elements` is
strictly below the emitted vertex count (position array length divided
by 3), for every cylinder. -/
theorem C2_index_bounds (t : Trig) (dz r0 r1 : ℚ) (p : Vec) :
    ∀ v ∈ (((mkCylinder t dz r0 r1).setPos p).elements t).index,
      v < (((mkCylinder t dz r0 r1).setPos p).elements t).position.length / 3 := by
  intro v hv
  have hv74 := elements_vertCount t ((mkCylinder t dz r0 r1).setPos p)
    (mk_setPos_verts_length t dz r0 r1 p)
  have hp : (((mkCylinder t dz r0 r1).setPos p).elements t).position.length / 3 = 74 := by
    rw [elements_position_length, hv74]
  rw [hp]
  rw [elements_index_eq] at hv
  exact (by decide : ∀ w ∈ cylIndexList, w < 74) v hv

/-- Witness for C2 at a concrete cylinder and a concrete index entry. -/
theorem C2_index_bounds_witness :
    12 ∈ (((mkCylinder trig0 1 1 (1/4)).setPos ⟨0, 0, 0⟩).elements trig0).index ∧
    12 < (((mkCylinder trig0 1 1 (1/4)).setPos ⟨0, 0, 0⟩).elements trig0).position.length / 3 :=
  ⟨by decide, C2_index_bounds trig0 1 1 (1/4) ⟨0, 0, 0⟩ 12 (by decide)⟩

/-- C3 (code bug): the color array of `Cylinder.elements` is NOT parallel to
the position array — the builder emits 74 position triples but only 72 color
quadruples (12 per cap although each cap has 13 vertices, plus 48 side
quadruples), contradicting both the spec invariant
`len(positions)/3 == len(colors)/4` and the method's own doc comment, which
promises equal vertex and color counts.  Evaluated at the spec's concrete
scenario `Cylinder(1, 1, 0.25)`. -/
theorem C3_color_array_short :
    ((mkCylinder trig0 1 1 (1/4)).elements trig0).position.length = 3 * 74 ∧
    ((mkCylinder trig0 1 1 (1/4)).elements trig0).color.length = 4 * 72 ∧
    ((mkCylinder trig0 1 1 (1/4)).elements trig0).position.length / 3 ≠
      ((mkCylinder trig0 1 1 (1/4)).elements trig0).color.length / 4 :=
  ⟨rfl, rfl, by decide⟩

/-- C5 counterexample: constructing a cylinder with negative height and radii
is not rejected — the build still returns a complete, structurally well-formed
buffer (74 vertices, 48 triangles), refuting the claim that building fails
for negative dimensions (`Cylinder`'s constructor performs no validation). -/
theorem C5_negative_dims_counterexample :
    ((mkCylinder trig0 (-1) (-1) (-1)).elements trig0).vertCount = 74 ∧
    ((mkCylinder trig0 (-1) (-1) (-1)).elements trig0).indCount = 144 :=
  ⟨rfl, rfl⟩

/-- C5 amended: negative height or radii are accepted without any check —
for every `dz < 0` or `r0 < 0` or `r1 < 0`, the construction succeeds and the
builder returns the standard well-formed 74-vertex, 48-triangle buffer rather
than failing. -/
theorem C5_negative_dims_amended (t : Trig) (dz r0 r1 : ℚ) (p : Vec)
    (_h : dz < 0 ∨ r0 < 0 ∨ r1 < 0) :
    (((mkCylinder t dz r0 r1).setPos p).elements t).vertCount = 74 ∧
    (((mkCylinder t dz r0 r1).setPos p).elements t).indCount = 144 :=
  ⟨elements_vertCount t ((mkCylinder t dz r0 r1).setPos p) (mk_setPos_verts_length t dz r0 r1 p),
    rfl⟩

/-- Witness for the amended C5 at `dz = r0 = r1 = -1`. -/
theorem C5_negative_dims_witness :
    ((-1 : ℚ) < 0 ∨ (-1 : ℚ) < 0 ∨ (-1 : ℚ) < 0) ∧
    ((((mkCylinder trig0 (-1) (-1) (-1)).setPos ⟨0, 0, 0⟩).elements trig0).vertCount = 74 ∧
      (((mkCylinder trig0 (-1) (-1) (-1)).setPos ⟨0, 0, 0⟩).elements trig0).indCount = 144) :=
  ⟨Or.inl (by norm_num),
    C5_negative_dims_amended trig0 (-1) (-1) (-1) ⟨0, 0, 0⟩ (Or.inl (by norm_num))⟩

/-- C6 (code bug): the range check in `getComponent`/`removeComponent` is
`ind > length || ind < 0`, so the out-of-range index `ind = count` is NOT
rejected: on a one-component craft, `getComponent(1)` returns JS `undefined`
(`none`) instead of throwing the documented `RangeError`, and
`removeComponent(1)` returns `undefined` leaving the list unchanged; only
indices strictly greater than the count (or negative) are rejected. -/
theorem C6_index_eq_count_not_rejected :
    getComponent [7] 1 = .ok none ∧
    removeComponent [7] (.idx 1) = .ok (none, [7]) ∧
    getComponent [7] 2 = .error (.rangeError 2) :=
  ⟨rfl, rfl, rfl⟩

/-- C7 counterexample: removing an absent component reference from the
one-component craft `[5]` fails with `RangeError` carrying index `-1` — the
very same failure value `removeComponent` produces for the out-of-range
numeric index `-1`, so the not-found failure is not distinct from the
range-violation failure. -/
theorem C7_not_found_counterexample :
    removeComponent [5] (.comp 9) = .error (.rangeError (-1)) ∧
    removeComponent [5] (.comp 9) = removeComponent [5] (.idx (-1)) :=
  ⟨rfl, rfl⟩

/-- C7 amended: removal of a component reference that is not in the list
fails with the same `RangeError` (range violation at index `-1`, the
`indexOf` result) that an out-of-range numeric index `-1` produces — not with
a distinct not-found failure. -/
theorem C7_not_found_amended (l : List ℕ) (c : ℕ) (h : c ∉ l) :
    removeComponent l (.comp c) = .error (.rangeError (-1)) ∧
    removeComponent l (.comp c) = removeComponent l (.idx (-1)) := by
  have hidx : removeComponent l (.idx (-1)) = .error (.rangeError (-1)) := by
    unfold removeComponent
    simp
  exact ⟨removeComponent_absent h, by rw [removeComponent_absent h, hidx]⟩

/-- Witness for the amended C7 on the craft `[5]` and absent component `9`. -/
theorem C7_not_found_witness :
    (9 ∉ [5]) ∧
    (removeComponent [5] (.comp 9) = .error (.rangeError (-1)) ∧
      removeComponent [5] (.comp 9) = removeComponent [5] (.idx (-1))) :=
  ⟨by decide, C7_not_found_amended [5] 9 (by decide)⟩

/-- C8: adding the same component twice leaves the count unchanged after the
second call, with exactly one occurrence positioned last; removing it by
reference then succeeds and returns it, and a second removal fails because the
component is no longer found.  The hypothesis (at most one occurrence to start
with) holds for every reachable component list, since `addComponent` is the
only way to insert. -/
theorem C8_add_add_remove (l : List ℕ) (x : ℕ) (h : l.count x ≤ 1) :
    (addComponent (addComponent l x) x).length = (addComponent l x).length ∧
    (addComponent (addComponent l x) x).count x = 1 ∧
    (addComponent (addComponent l x) x).getLast? = some x ∧
    ∃ rest, removeComponent (addComponent (addComponent l x) x) (.comp x) = .ok (some x, rest)
      ∧ removeComponent rest (.comp x) = .error (.rangeError (-1)) := by
  obtain ⟨ys, h1, hys⟩ := addComponent_shape l x h
  have h2 : addComponent (addComponent l x) x = ys ++ [x] := by
    rw [h1]
    exact addComponent_last hys
  refine ⟨?_, ?_, ?_, ys, ?_, ?_⟩
  · rw [h2, h1]
  · rw [h2]
    simp [List.count_append, List.count_eq_zero_of_not_mem hys]
  · rw [h2, List.getLast?_concat]
  · rw [h2]
    exact removeComponent_last hys
  · exact removeComponent_absent hys

/-- Witness for C8 on the empty component list. -/
theorem C8_add_add_remove_witness :
    ([] : List ℕ).count 0 ≤ 1 ∧
    ((addComponent (addComponent [] 0) 0).length = (addComponent [] 0).length ∧
      (addComponent (addComponent [] 0) 0).count 0 = 1 ∧
      (addComponent (addComponent [] 0) 0).getLast? = some 0 ∧
      ∃ rest, removeComponent (addComponent (addComponent [] 0) 0) (.comp 0) = .ok (some 0, rest)
        ∧ removeComponent rest (.comp 0) = .error (.rangeError (-1))) :=
  ⟨by decide, C8_add_add_remove [] 0 (by decide)⟩

/-- C9: the shared `Cylinder.unitVerts` template is never mutated — for every
trig interpretation and every sequence of cylinder constructions with
arbitrary dimensions, folding the template state through all the
`Cylinder.getVectors` calls (the only code path that reads the template;
geometry requests read only the per-instance `_verts` copies) returns the
template state unchanged, because `scale` and `copy` construct fresh `Vector`
instances and the Cartesian getters of a Cartesian-constructed vector never
write the caches. -/
theorem C9_template_immutable (t : Trig) (ps : List (ℚ × ℚ × ℚ)) :
    constructMany t ps (initTemplate t) = initTemplate t := by
  induction ps with
  | nil => rfl
  | cons p ps ih =>
    obtain ⟨vs, hvs⟩ :
        ∃ vs, getVectorsSt t p.1 p.2.1 p.2.2 (initTemplate t) = .ok (vs, initTemplate t) :=
      ⟨_, rfl⟩
    unfold constructMany at ih ⊢
    rw [List.foldl_cons]
    simp only [hvs]
    exact ih

/-- C10: within every triangle emitted by `Cylinder.elements` (bottom cap,
top cap and side walls alike), the three index entries are pairwise
distinct. -/
theorem C10_triangle_indices_distinct (t : Trig) (dz r0 r1 : ℚ) (p : Vec) (k : ℕ)
    (hk : k < 4 * 12) :
    ((((mkCylinder t dz r0 r1).setPos p).elements t).index.getD (3 * k) 0 ≠
      (((mkCylinder t dz r0 r1).setPos p).elements t).index.getD (3 * k + 1) 0) ∧
    ((((mkCylinder t dz r0 r1).setPos p).elements t).index.getD (3 * k) 0 ≠
      (((mkCylinder t dz r0 r1).setPos p).elements t).index.getD (3 * k + 2) 0) ∧
    ((((mkCylinder t dz r0 r1).setPos p).elements t).index.getD (3 * k + 1) 0 ≠
      (((mkCylinder t dz r0 r1).setPos p).elements t).index.getD (3 * k + 2) 0) := by
  rw [elements_index_eq]
  exact (by decide :
    ∀ j < 4 * 12, (cylIndexList.getD (3 * j) 0 ≠ cylIndexList.getD (3 * j + 1) 0) ∧
      (cylIndexList.getD (3 * j) 0 ≠ cylIndexList.getD (3 * j + 2) 0) ∧
      (cylIndexList.getD (3 * j + 1) 0 ≠ cylIndexList.getD (3 * j + 2) 0)) k hk

/-- Witness for C10 at the first bottom-cap triangle of a concrete cylinder. -/
theorem C10_triangle_indices_distinct_witness :
    0 < 4 * 12 ∧
    (((((mkCylinder trig0 1 1 (1/4)).setPos ⟨0, 0, 0⟩).elements trig0).index.getD (3 * 0) 0 ≠
       (((mkCylinder trig0 1 1 (1/4)).setPos ⟨0, 0, 0⟩).elements trig0).index.getD (3 * 0 + 1) 0) ∧
     ((((mkCylinder trig0 1 1 (1/4)).setPos ⟨0, 0, 0⟩).elements trig0).index.getD (3 * 0) 0 ≠
       (((mkCylinder trig0 1 1 (1/4)).setPos ⟨0, 0, 0⟩).elements trig0).index.getD (3 * 0 + 2) 0) ∧
     ((((mkCylinder trig0 1 1 (1/4)).setPos ⟨0, 0, 0⟩).elements trig0).index.getD (3 * 0 + 1) 0 ≠
       (((mkCylinder trig0 1 1 (1/4)).setPos ⟨0, 0, 0⟩).elements trig0).index.getD (3 * 0 + 2) 0)) :=
  ⟨by decide, C10_triangle_indices_distinct trig0 1 1 (1/4) ⟨0, 0, 0⟩ 0 (by decide)⟩

/-- C4: merging an ordered component list whose geometries are
independently valid (well formed, with every index of the second component
below its own vertex count, and the first two vertex counts within the
`Uint16` range required of the renderer), `Spacecraft.elements` produces a
buffer with the summed vertex count — `v1 + v2 + …` vertices, position array
of three entries each — in which every index entry `k` of the second
component appears re-based as `k + v1` at its slot after the first
component's index block. -/
theorem C4_aggregation_offsets (d1 d2 : DataIndex) (rest : List DataIndex)
    (hw : ∀ d ∈ d1 :: d2 :: rest, wfDI d)
    (hk : ∀ k ∈ d2.index, k < d2.vertCount)
    (hu : d1.vertCount + d2.vertCount ≤ 65536) :
    ∃ out, scElements (d1 :: d2 :: rest) = some out ∧
      out.vertCount = d1.vertCount + d2.vertCount + (rest.map DataIndex.vertCount).sum ∧
      out.position.length = 3 * out.vertCount ∧
      ∀ j k, d2.index[j]? = some k →
        out.index[d1.indCount + j]? = some (k + d1.vertCount) := by
  have hw1 : wfDI d1 := hw d1 (by simp)
  have hw2 : wfDI d2 := hw d2 (by simp)
  have hwr : ∀ e ∈ rest, wfDI e := fun e he => hw e (by simp [he])
  obtain ⟨h11, h12, h13, h14⟩ := hw1
  obtain ⟨h21, h22, h23, h24⟩ := hw2
  have hsv : ((d1 :: d2 :: rest).map DataIndex.vertCount).sum
      = d1.vertCount + (d2.vertCount + (rest.map DataIndex.vertCount).sum) := by
    simp
  have hsi : ((d1 :: d2 :: rest).map DataIndex.indCount).sum
      = d1.indCount + (d2.indCount + (rest.map DataIndex.indCount).sum) := by
    simp
  obtain ⟨acc1, hstep1, hv1, hi1, hpl1, hcl1, hnl1, hil1, -⟩ :=
    @mergeStep_ok ⟨0, 0, List.replicate (3 * ((d1 :: d2 :: rest).map DataIndex.vertCount).sum) 0,
        List.replicate (4 * ((d1 :: d2 :: rest).map DataIndex.vertCount).sum) 0, [],
        List.replicate (((d1 :: d2 :: rest).map DataIndex.indCount).sum) 0⟩
      d1 ⟨h11, h12, h13, h14⟩
      (by simp [hsv]) (by simp [hsv]) rfl (by simp [hsi])
  have hv1a : acc1.vertCount = d1.vertCount := by rw [hv1]; simp
  have hi1a : acc1.indCount = d1.indCount := by rw [hi1]; simp
  have hpl1a : acc1.position.length
      = 3 * (d1.vertCount + (d2.vertCount + (rest.map DataIndex.vertCount).sum)) := by
    rw [hpl1]
    simp [hsv]
  have hcl1a : acc1.color.length
      = 4 * (d1.vertCount + (d2.vertCount + (rest.map DataIndex.vertCount).sum)) := by
    rw [hcl1]
    simp [hsv]
  have hil1a : acc1.index.length
      = d1.indCount + (d2.indCount + (rest.map DataIndex.indCount).sum) := by
    rw [hil1]
    simp [hsi]
  obtain ⟨acc2, hstep2, hv2, hi2, hpl2, hcl2, hnl2, hil2, hts2⟩ :=
    @mergeStep_ok acc1 d2 ⟨h21, h22, h23, h24⟩
      (by rw [hpl1a, hv1a]; omega)
      (by rw [hcl1a, hv1a]; omega)
      hnl1
      (by rw [hil1a, hi1a]; omega)
  have hv2a : acc2.vertCount = d1.vertCount + d2.vertCount := by rw [hv2, hv1a]
  have hi2a : acc2.indCount = d1.indCount + d2.indCount := by rw [hi2, hi1a]
  obtain ⟨out, hrun, hvo, hpo, hio, hpre⟩ := mergeRun rest acc2 hwr
    (by rw [hpl2, hpl1a, hv2a]; ring)
    (by rw [hcl2, hcl1a, hv2a]; ring)
    hnl2
    (by rw [hil2, hil1a, hi2a]; omega)
  refine ⟨out, ?_, ?_, ?_, ?_⟩
  · show (d1 :: d2 :: rest).foldlM mergeStep _ = some out
    rw [List.foldlM_cons, hstep1]
    show (d2 :: rest).foldlM mergeStep acc1 = some out
    rw [List.foldlM_cons, hstep2]
    exact hrun
  · rw [hvo, hv2a]
  · rw [hpo, hpl2, hpl1a, hvo, hv2a]
    ring
  · intro j k hjk
    obtain ⟨hjlt, -⟩ := List.getElem?_eq_some_iff.mp hjk
    have hkmem : k ∈ d2.index := List.getElem?_mem hjk
    have hkv : k < d2.vertCount := hk k hkmem
    have hj2 : j < d2.indCount := by omega
    have hjc : d1.indCount + j < acc2.indCount := by
      rw [hi2a]
      omega
    rw [hpre (d1.indCount + j) hjc]
    have hoff : d1.indCount + j = acc1.indCount + j := by
      rw [hi1a]
    rw [hoff]
    rw [typedSet_getElem?_mid hts2 (by rw [List.length_map]; omega)]
    rw [List.getElem?_map, hjk]
    have hmod : (k + acc1.vertCount) % 65536 = k + d1.vertCount := by
      rw [hv1a]
      exact Nat.mod_eq_of_lt (by omega)
    simp [hmod]

/-- Witness for C4 on two concrete single-vertex, single-index components. -/
theorem C4_aggregation_offsets_witness :
    (∀ d ∈ [DataIndex.mk 1 1 [5, 6, 7] [] [] [0],
        DataIndex.mk 1 1 [8, 9, 10] [] [] [0]], wfDI d) ∧
    (∀ k ∈ (DataIndex.mk 1 1 [8, 9, 10] [] [] [0]).index,
      k < (DataIndex.mk 1 1 [8, 9, 10] [] [] [0]).vertCount) ∧
    (DataIndex.mk 1 1 [5, 6, 7] [] [] [0]).vertCount
      + (DataIndex.mk 1 1 [8, 9, 10] [] [] [0]).vertCount ≤ 65536 ∧
    (∃ out, scElements [DataIndex.mk 1 1 [5, 6, 7] [] [] [0],
        DataIndex.mk 1 1 [8, 9, 10] [] [] [0]] = some out ∧
      out.vertCount = (DataIndex.mk 1 1 [5, 6, 7] [] [] [0]).vertCount
        + (DataIndex.mk 1 1 [8, 9, 10] [] [] [0]).vertCount
        + (([] : List DataIndex).map DataIndex.vertCount).sum ∧
      out.position.length = 3 * out.vertCount ∧
      ∀ j k, (DataIndex.mk 1 1 [8, 9, 10] [] [] [0]).index[j]? = some k →
        out.index[(DataIndex.mk 1 1 [5, 6, 7] [] [] [0]).indCount + j]?
          = some (k + (DataIndex.mk 1 1 [5, 6, 7] [] [] [0]).vertCount)) :=
  ⟨by decide, by decide, by decide,
    C4_aggregation_offsets (DataIndex.mk 1 1 [5, 6, 7] [] [] [0])
      (DataIndex.mk 1 1 [8, 9, 10] [] [] [0]) [] (by decide) (by decide) (by decide)⟩

end Orbit
